import Mathlib

/-!
Shallow embedding of `pkska/ddbutil.py`: the key-generation engine
(`generate_keys_with_rules`), the key schema (`TableSpec`, `KeygenRules`,
`parse_rules`) and the DAO operations (`add`, `get`, `update`, `query_pk`)
verified against a model of the key-value store collaborator.
-/

namespace Pkska

/-- Scalar attribute values of an attribute mapping: null, string, integer or
boolean, mirroring the Python values the code stringifies with `str`. -/
inductive DVal where
  | null : DVal
  | str : String → DVal
  | int : Int → DVal
  | bool : Bool → DVal
deriving DecidableEq

/-- Python `str(val)` on the scalar values. -/
def DVal.toStr : DVal → String
  | DVal.null => "None"
  | DVal.str s => s
  | DVal.int n => toString n
  | DVal.bool b => if b then "True" else "False"

/-- An attribute mapping: a Python dict from field name to scalar value,
represented as an association list. -/
abbrev Item := List (String × DVal)

/-- Contents of the store collaborator's table: a list of stored items. -/
abbrev Store := List Item

/-- Lookup in a Python dict represented as an association list (first
matching entry; Python dicts have unique keys). -/
def dictGet {α : Type} (k : String) : List (String × α) → Option α
  | [] => none
  | (k2, v) :: rest => if k2 = k then some v else dictGet k rest

/-- Python dict assignment `d[k] = v`: replace the existing entry in place,
or append a new entry at the end. -/
def dictInsert {α : Type} (k : String) (v : α) : List (String × α) → List (String × α)
  | [] => [(k, v)]
  | (k2, v2) :: rest => if k2 = k then (k, v) :: rest else (k2, v2) :: dictInsert k v rest

/-- Error taxonomy of the design: `missingField` is the Python `KeyError`
raised by `d[field]` in `generate_keys_with_rules`; `alreadyExists` and
`notFound` are the rejections of the conditioned put and update. -/
inductive DaoError where
  | missingField : String → DaoError
  | alreadyExists : DaoError
  | notFound : DaoError
deriving DecidableEq

instance {ε α : Type} [DecidableEq ε] [DecidableEq α] : DecidableEq (Except ε α) := fun a b =>
  match a, b with
  | Except.ok x, Except.ok y => decidable_of_iff (x = y) (by simp)
  | Except.ok _, Except.error _ => isFalse (by simp)
  | Except.error _, Except.ok _ => isFalse (by simp)
  | Except.error x, Except.error y => decidable_of_iff (x = y) (by simp)

/-- Python `field.startswith("!")`: whether the token's first character is
`!` (such a token is a literal). -/
def startsBang (s : String) : Bool := s.data.head? == some (Char.ofNat 33)

/-- Inner loop of `generate_keys_with_rules`, producing the `parts` list for
one rule: a token starting with `"!"` appends its remaining text; otherwise
the token is a field reference: a missing field raises (KeyError), a null
value breaks out of the loop, and a present non-null value appends the field
name and then the stringified value. -/
def genParts : List String → Item → Except DaoError (List String)
  | [], _ => Except.ok []
  | field :: rest, d =>
    if startsBang field then
      match genParts rest d with
      | Except.error e => Except.error e
      | Except.ok ps => Except.ok (field.drop 1 :: ps)
    else
      match dictGet field d with
      | none => Except.error (DaoError.missingField field)
      | some DVal.null => Except.ok []
      | some v =>
        match genParts rest d with
        | Except.error e => Except.error e
        | Except.ok ps => Except.ok (field :: v.toStr :: ps)

/-- Key string for a single rule: Python `"#".join(parts)`. -/
def genKeyString (rulefields : List String) (d : Item) : Except DaoError String :=
  match genParts rulefields d with
  | Except.error e => Except.error e
  | Except.ok parts => Except.ok (String.intercalate "#" parts)

/-- Loop of `generate_keys_with_rules` over the rule list, accumulating the
`resp` dict. -/
def genAux : List (String × List String) → Item → List (String × String) →
    Except DaoError (List (String × String))
  | [], _, resp => Except.ok resp
  | (rulek, rulefields) :: rest, d, resp =>
    match genKeyString rulefields d with
    | Except.error e => Except.error e
    | Except.ok s => genAux rest d (dictInsert rulek s resp)

/-- The key-generation engine `generate_keys_with_rules(rules, d)`. -/
def generate_keys_with_rules (rules : List (String × List String)) (d : Item) :
    Except DaoError (List (String × String)) :=
  genAux rules d []

/-- Per-value-type key-generation rules: the token lists of the partition
rule and of the sort rule. -/
structure KeygenRules where
  pk : List String
  sk : List String

/-- Physical table description, with the source's default attribute names
and the optional type-discriminator column. -/
structure TableSpec where
  name : String
  pk : String := "PK"
  sk : String := "SK"
  type_col : Option String := none

/-- Pairing of the rules with the physical attribute names:
first rule is always the pk rule, then the sk rule. -/
def parse_rules (db : TableSpec) (rules : KeygenRules) : List (String × List String) :=
  [(db.pk, rules.pk), (db.sk, rules.sk)]

/-- The DAO, bound at construction to a value type (here its name, used for
the type-discriminator column, and its `KeygenRules`) and a `TableSpec`. -/
structure Dao where
  typeName : String
  spec : TableSpec
  krules : KeygenRules

/-- Field `self.rules` computed in `Dao.__init__`. -/
def Dao.rules (dao : Dao) : List (String × List String) :=
  parse_rules dao.spec dao.krules

/-- Primary key of a stored item: the values of the physical partition and
sort attributes. -/
def itemKey (pkA skA : String) (it : Item) : Option DVal × Option DVal :=
  (dictGet pkA it, dictGet skA it)

/-- Modelled from the spec: the store collaborator's item fetch by primary
key (`getItem`); the table holds at most one item per key, and the model
returns the first item whose key matches. -/
def findAt (pkA skA : String) (st : Store) (key : Option DVal × Option DVal) : Option Item :=
  match st with
  | [] => none
  | it :: rest => if itemKey pkA skA it = key then some it else findAt pkA skA rest key

/-- Modelled from the spec: removal of every item stored at the given
primary key (a well-formed table holds at most one). -/
def removeAt (pkA skA : String) (st : Store) (key : Option DVal × Option DVal) : Store :=
  match st with
  | [] => []
  | x :: rest =>
    if itemKey pkA skA x = key then removeAt pkA skA rest key
    else x :: removeAt pkA skA rest key

/-- Modelled from the spec: physical write of an item — any previous item at
the same primary key is replaced. -/
def putAt (pkA skA : String) (st : Store) (it : Item) : Store :=
  removeAt pkA skA st (itemKey pkA skA it) ++ [it]

/-- Modelled from the spec: the store collaborator's conditioned insert
`putItem` with condition `attribute_not_exists(pkA)`; the condition is
evaluated against the item currently stored at the new item's primary key,
so it fails exactly when such an item exists (and carries the partition
attribute, as every stored item does). -/
def putIfNotExists (pkA skA : String) (it : Item) (st : Store) : Except DaoError Store :=
  match findAt pkA skA st (itemKey pkA skA it) with
  | some existing =>
    if (dictGet pkA existing).isSome then Except.error DaoError.alreadyExists
    else Except.ok (putAt pkA skA st it)
  | none => Except.ok (putAt pkA skA st it)

/-- Modelled from the spec: the store collaborator resolving and applying the
SET clauses of an update expression — each clause holds a name placeholder
and a value placeholder, resolved through the name and value dictionaries,
and sets that attribute of the item. -/
def applySet : List (String × String) → List (String × String) → List (String × DVal) →
    Item → Item
  | [], _, _, it => it
  | c :: cs, attrnames, vals, it =>
    match dictGet c.1 attrnames, dictGet c.2 vals with
    | some k, some v => applySet cs attrnames vals (dictInsert k v it)
    | _, _ => applySet cs attrnames vals it

/-- Modelled from the spec: the store collaborator's conditioned
`updateItem` with condition `attribute_exists(pkA)`: with no item at the
key the condition fails; otherwise the SET clauses are applied to the
stored item. -/
def updateIfExists (pkA skA : String) (key : Item) (clauses : List (String × String))
    (attrnames : List (String × String)) (vals : List (String × DVal)) (st : Store) :
    Except DaoError Store :=
  match findAt pkA skA st (itemKey pkA skA key) with
  | none => Except.error DaoError.notFound
  | some existing =>
    if (dictGet pkA existing).isSome then
      Except.ok (putAt pkA skA st (applySet clauses attrnames vals existing))
    else Except.error DaoError.notFound

/-- Python `d.update(keys)` in `Dao.add`: the generated key strings are
merged into the serialized attribute mapping. -/
def mergeKeys (d : Item) (keys : List (String × String)) : Item :=
  keys.foldl (fun acc kv => dictInsert kv.1 (DVal.str kv.2) acc) d

/-- Item assembled by `Dao.add` before the store call: the serialized value
with the generated keys merged in and, when the spec declares a
type-discriminator column, the value type's name stored under it. -/
def Dao.addItem (dao : Dao) (d : Item) : Except DaoError Item :=
  match generate_keys_with_rules dao.rules d with
  | Except.error e => Except.error e
  | Except.ok keys =>
    let d2 := mergeKeys d keys
    Except.ok (match dao.spec.type_col with
               | some tc => dictInsert tc (DVal.str dao.typeName) d2
               | none => d2)

/-- The DAO's `add`: assemble the item, then issue the conditioned insert. -/
def Dao.add (dao : Dao) (d : Item) (st : Store) : Except DaoError Store :=
  match Dao.addItem dao d with
  | Except.error e => Except.error e
  | Except.ok it => putIfNotExists dao.spec.pk dao.spec.sk it st

/-- Run `add` as a state transition: an error leaves the store unchanged
(the failed call writes nothing). -/
def Dao.runAdd (dao : Dao) (d : Item) (st : Store) : Store × Option DaoError :=
  match Dao.add dao d st with
  | Except.ok st2 => (st2, none)
  | Except.error e => (st, some e)

/-- Generated key mapping turned into the `Key=` argument of the store
calls: the generated strings under the physical attribute names. -/
def keyItem (ks : List (String × String)) : Item :=
  ks.map (fun kv => (kv.1, DVal.str kv.2))

/-- The DAO's `get`: generate the full key with the same engine, then fetch
by exact primary-key match (the raw stored item is returned; deserialization
into the value type is the external collaborator's job). -/
def Dao.get (dao : Dao) (keyd : Item) (st : Store) : Except DaoError (Option Item) :=
  match generate_keys_with_rules dao.rules keyd with
  | Except.error e => Except.error e
  | Except.ok ks =>
    Except.ok (findAt dao.spec.pk dao.spec.sk st
      (itemKey dao.spec.pk dao.spec.sk (keyItem ks)))

/-- Loop of `Dao.update` building the update expression: clause `i` is
`#attr<i> = :val<i>`, with `#attr<i>` bound to the i-th field name in the
names dictionary and `:val<i>` to the i-th new value in the values
dictionary. -/
def buildUpdateAux : Nat → List (String × DVal) →
    List (String × String) × List (String × String) × List (String × DVal)
  | _, [] => ([], [], [])
  | i, (k, v) :: rest =>
    let r := buildUpdateAux (i + 1) rest
    (("#attr" ++ Nat.repr i, ":val" ++ Nat.repr i) :: r.1,
     ("#attr" ++ Nat.repr i, k) :: r.2.1,
     (":val" ++ Nat.repr i, v) :: r.2.2)

/-- The DAO's `update`: generate the full key, build the SET clauses over
`update_dict`, and issue the conditioned update. -/
def Dao.update (dao : Dao) (keyd : Item) (update_dict : List (String × DVal)) (st : Store) :
    Except DaoError Store :=
  match generate_keys_with_rules dao.rules keyd with
  | Except.error e => Except.error e
  | Except.ok ks =>
    let b := buildUpdateAux 0 update_dict
    updateIfExists dao.spec.pk dao.spec.sk (keyItem ks) b.1 b.2.1 b.2.2 st

/-- Run `update` as a state transition: an error leaves the store
unchanged. -/
def Dao.runUpdate (dao : Dao) (keyd : Item) (update_dict : List (String × DVal))
    (st : Store) : Store × Option DaoError :=
  match Dao.update dao keyd update_dict st with
  | Except.ok st2 => (st2, none)
  | Except.error e => (st, some e)

/-- Modelled from the spec: the store collaborator's `query` with the
partition-equality condition `Key(pkA).eq(pkval)` — all items whose
partition attribute equals the given string, in store order. -/
def queryEq (pkA : String) (pkval : String) : Store → List Item
  | [] => []
  | it :: rest =>
    if dictGet pkA it = some (DVal.str pkval) then it :: queryEq pkA pkval rest
    else queryEq pkA pkval rest

/-- The DAO's `query_pk`: generate only `self.rules[0]` (the partition
rule), read the partition string out of the response dict, and query for
partition equality. -/
def Dao.query_pk (dao : Dao) (keyd : Item) (st : Store) : Except DaoError (List Item) :=
  match generate_keys_with_rules (dao.rules.take 1) keyd with
  | Except.error e => Except.error e
  | Except.ok resp =>
    match dictGet dao.spec.pk resp with
    | none => Except.error (DaoError.missingField dao.spec.pk)
    | some pkval => Except.ok (queryEq dao.spec.pk pkval st)

/-- Net effect of the built SET clauses: set each named field to its new
value, in order. -/
def updatedItem (update_dict : List (String × DVal)) (it : Item) : Item :=
  update_dict.foldl (fun acc kv => dictInsert kv.1 kv.2 acc) it

/-- Transcription of the spec sentence on token emission: a literal token
emits its fixed text as one token; a field-reference token emits the field
name followed by the stringified field value as two consecutive tokens. -/
def specTokenEmit (d : Item) (field : String) : List String :=
  if startsBang field then [field.drop 1]
  else
    match dictGet field d with
    | some v => [field, v.toStr]
    | none => []

/-- Transcription of the spec sentence on processing order: tokens are
processed left to right until (and excluding) the first field-reference
token that resolves to null. -/
def specProcessedTokens : List String → Item → List String
  | [], _ => []
  | field :: rest, d =>
    if startsBang field then field :: specProcessedTokens rest d
    else
      match dictGet field d with
      | some DVal.null => []
      | some _ => field :: specProcessedTokens rest d
      | none => []

/-- Decimal digit characters of a natural number, most significant first:
the fuel-free reference form of `Nat.toDigitsCore` at base 10. -/
def decChars (n : Nat) : List Char :=
  if n < 10 then [Nat.digitChar n]
  else decChars (n / 10) ++ [Nat.digitChar (n % 10)]
termination_by n
decreasing_by exact Nat.div_lt_self (by omega) (by omega)

theorem dictGet_insert_self {α : Type} (k : String) (v : α) (l : List (String × α)) :
    dictGet k (dictInsert k v l) = some v := by
  induction l with
  | nil => simp [dictInsert, dictGet]
  | cons p rest ih =>
    obtain ⟨k2, v2⟩ := p
    by_cases h : k2 = k
    · simp [dictInsert, dictGet, h]
    · simp [dictInsert, dictGet, h, ih]

theorem dictGet_insert_other {α : Type} (k k2 : String) (v : α) (l : List (String × α))
    (h : k2 ≠ k) : dictGet k (dictInsert k2 v l) = dictGet k l := by
  induction l with
  | nil => simp [dictInsert, dictGet, h]
  | cons p rest ih =>
    obtain ⟨k3, v3⟩ := p
    by_cases h2 : k3 = k2
    · subst h2
      simp [dictInsert, dictGet, h]
    · simp [dictInsert, dictGet, h2, ih]

theorem dictGet_insert_isSome {α : Type} (k k2 : String) (v : α) (l : List (String × α))
    (h : (dictGet k l).isSome = true) : (dictGet k (dictInsert k2 v l)).isSome = true := by
  by_cases hk : k2 = k
  · subst hk
    simp [dictGet_insert_self]
  · rwa [dictGet_insert_other _ _ _ _ hk]

theorem genParts_truncate (pre suf : List String) (f : String) (d : Item)
    (hf : startsBang f = false) (hnull : dictGet f d = some DVal.null) :
    genParts (pre ++ f :: suf) d = genParts pre d := by
  induction pre with
  | nil => simp [genParts, hf, hnull]
  | cons g rest ih =>
    show genParts (g :: (rest ++ f :: suf)) d = genParts (g :: rest) d
    simp only [genParts, ih]

theorem genParts_ok_shape (rulefields : List String) (d : Item) (parts : List String)
    (h : genParts rulefields d = Except.ok parts) :
    parts = ((specProcessedTokens rulefields d).map (specTokenEmit d)).flatten := by
  induction rulefields generalizing parts with
  | nil =>
    simp only [genParts, Except.ok.injEq] at h
    subst h
    simp [specProcessedTokens]
  | cons f rest ih =>
    cases hf : startsBang f with
    | true =>
      simp only [genParts, hf, if_true] at h
      cases hps : genParts rest d with
      | error e => simp [hps] at h
      | ok ps =>
        simp only [hps, Except.ok.injEq] at h
        subst h
        simp [specProcessedTokens, specTokenEmit, hf, ih ps hps]
    | false =>
      simp only [genParts, hf, Bool.false_eq_true, if_false] at h
      cases hg : dictGet f d with
      | none => simp [hg] at h
      | some v =>
        simp only [hg] at h
        cases v with
        | null =>
          simp only [Except.ok.injEq] at h
          subst h
          simp [specProcessedTokens, hf, hg]
        | str s =>
          cases hps : genParts rest d with
          | error e => simp [hps] at h
          | ok ps =>
            simp only [hps, Except.ok.injEq] at h
            subst h
            simp [specProcessedTokens, specTokenEmit, hf, hg, ih ps hps]
        | int n =>
          cases hps : genParts rest d with
          | error e => simp [hps] at h
          | ok ps =>
            simp only [hps, Except.ok.injEq] at h
            subst h
            simp [specProcessedTokens, specTokenEmit, hf, hg, ih ps hps]
        | bool b =>
          cases hps : genParts rest d with
          | error e => simp [hps] at h
          | ok ps =>
            simp only [hps, Except.ok.injEq] at h
            subst h
            simp [specProcessedTokens, specTokenEmit, hf, hg, ih ps hps]

/-- C1: for every key rule and attribute mapping on which generation
succeeds, the generated key string is the emission lists of the processed
tokens — field name followed by stringified value for a field reference,
fixed text for a literal — concatenated in rule order and joined with the
separator `#`. -/
theorem key_string_shape (rulefields : List String) (d : Item) (s : String)
    (h : genKeyString rulefields d = Except.ok s) :
    s = String.intercalate "#"
      (((specProcessedTokens rulefields d).map (specTokenEmit d)).flatten) := by
  unfold genKeyString at h
  cases hps : genParts rulefields d with
  | error e => simp [hps] at h
  | ok parts =>
    simp only [hps, Except.ok.injEq] at h
    subst h
    rw [genParts_ok_shape rulefields d parts hps]

/-- Witness for C1 at the rule `[!USER, id]` and mapping `id ↦ "42"`. -/
theorem key_string_shape_witness :
    genKeyString ["!USER", "id"] [("id", DVal.str "42")] = Except.ok "USER#id#42"
    ∧ "USER#id#42" = String.intercalate "#"
        (((specProcessedTokens ["!USER", "id"] [("id", DVal.str "42")]).map
          (specTokenEmit [("id", DVal.str "42")])).flatten) :=
  ⟨by decide, key_string_shape ["!USER", "id"] [("id", DVal.str "42")] "USER#id#42" (by decide)⟩

/-- C2 counterexample: on the claim's first example the key generator
returns the partition string `USER#id#42` (the engine always emits the
field name before the value), not `USER#42`. -/
theorem prefix_example_counterexample :
    generate_keys_with_rules [("PK", ["!USER", "id"]), ("SK", ["!PROFILE"])]
        [("id", DVal.str "42")]
      = Except.ok [("PK", "USER#id#42"), ("SK", "PROFILE")]
    ∧ "USER#id#42" ≠ "USER#42" :=
  ⟨rfl, by decide⟩

/-- C2 amended: for the rules pk = [literal USER, field id],
sk = [literal PROFILE] and mapping id ↦ "42" the generator returns
partition `USER#id#42` and sort `PROFILE`; and for sk = [field status,
field ts] with status ↦ "ACTIVE", ts ↦ null it returns the sort string
`status#ACTIVE`. -/
theorem prefix_example :
    generate_keys_with_rules [("PK", ["!USER", "id"]), ("SK", ["!PROFILE"])]
        [("id", DVal.str "42")]
      = Except.ok [("PK", "USER#id#42"), ("SK", "PROFILE")]
    ∧ generate_keys_with_rules [("SK", ["status", "ts"])]
        [("status", DVal.str "ACTIVE"), ("ts", DVal.null)]
      = Except.ok [("SK", "status#ACTIVE")] :=
  ⟨rfl, rfl⟩

/-- C3: truncation law — if a field-reference token of a rule resolves to
null, the generated string equals the one produced by the same rule cut
before that token; no later token, literal or field reference,
contributes. -/
theorem truncation_law (pre suf : List String) (f : String) (d : Item)
    (hf : startsBang f = false) (hnull : dictGet f d = some DVal.null) :
    genKeyString (pre ++ f :: suf) d = genKeyString pre d := by
  unfold genKeyString
  rw [genParts_truncate pre suf f d hf hnull]

/-- Witness for C3 at the rule `[status, ts, !X]` with ts ↦ null. -/
theorem truncation_law_witness :
    (startsBang "ts" = false)
    ∧ dictGet "ts" [("status", DVal.str "ACTIVE"), ("ts", DVal.null)] = some DVal.null
    ∧ genKeyString (["status"] ++ "ts" :: ["!X"])
        [("status", DVal.str "ACTIVE"), ("ts", DVal.null)]
      = genKeyString ["status"] [("status", DVal.str "ACTIVE"), ("ts", DVal.null)] :=
  ⟨by decide, by decide,
   truncation_law ["status"] ["!X"] "ts" [("status", DVal.str "ACTIVE"), ("ts", DVal.null)]
     (by decide) (by decide)⟩

theorem genParts_missing (pre suf : List String) (f : String) (d : Item)
    (hf : startsBang f = false) (habs : dictGet f d = none)
    (hpre : ∀ g ∈ pre, startsBang g = false →
      dictGet g d ≠ none ∧ dictGet g d ≠ some DVal.null) :
    genParts (pre ++ f :: suf) d = Except.error (DaoError.missingField f) := by
  induction pre with
  | nil => simp [genParts, hf, habs]
  | cons g rest ih =>
    have hrest : ∀ g2 ∈ rest, startsBang g2 = false →
        dictGet g2 d ≠ none ∧ dictGet g2 d ≠ some DVal.null :=
      fun g2 hg2 => hpre g2 (List.mem_cons_of_mem g hg2)
    show genParts (g :: (rest ++ f :: suf)) d = _
    cases hg : startsBang g with
    | true => simp [genParts, hg, ih hrest]
    | false =>
      obtain ⟨h1, h2⟩ := hpre g (List.mem_cons_self g rest) hg
      cases hv : dictGet g d with
      | none => exact absurd hv h1
      | some v =>
        cases v with
        | null => exact absurd hv h2
        | str s => simp [genParts, hg, hv, ih hrest]
        | int n => simp [genParts, hg, hv, ih hrest]
        | bool b => simp [genParts, hg, hv, ih hrest]

/-- C4 counterexample: the rule `[a, b]` contains the field-reference token
`b` whose field is absent from the mapping `a ↦ null`, yet key generation
succeeds (with the empty string), because the null value of `a` truncates
evaluation before `b` is ever looked up. -/
theorem missing_field_counterexample :
    startsBang "b" = false
    ∧ dictGet "b" [("a", DVal.null)] = (none : Option DVal)
    ∧ genKeyString ["a", "b"] [("a", DVal.null)] = Except.ok "" :=
  ⟨by decide, by decide, by decide⟩

/-- C4 amended: when a field-reference token whose field is absent is
reached — every earlier field-reference token resolves to a present,
non-null value — key generation fails with `MissingFieldError` for that
field; and whenever key generation fails, each DAO operation returns that
very failure for every store state, leaving the store unchanged (the
failure precedes any store-client call). -/
theorem missing_field_fail_fast (pre suf : List String) (f : String) (d : Item)
    (hf : startsBang f = false) (habs : dictGet f d = none)
    (hpre : ∀ g ∈ pre, startsBang g = false →
      dictGet g d ≠ none ∧ dictGet g d ≠ some DVal.null) :
    genKeyString (pre ++ f :: suf) d = Except.error (DaoError.missingField f)
    ∧ ∀ (dao : Dao) (keyd : Item) (ud : List (String × DVal)) (e : DaoError) (st : Store),
        (generate_keys_with_rules dao.rules keyd = Except.error e →
          Dao.runAdd dao keyd st = (st, some e)
          ∧ Dao.get dao keyd st = Except.error e
          ∧ Dao.runUpdate dao keyd ud st = (st, some e))
        ∧ (generate_keys_with_rules (dao.rules.take 1) keyd = Except.error e →
          Dao.query_pk dao keyd st = Except.error e) := by
  constructor
  · unfold genKeyString
    rw [genParts_missing pre suf f d hf habs hpre]
  · intro dao keyd ud e st
    constructor
    · intro hgen
      refine ⟨?_, ?_, ?_⟩
      · simp [Dao.runAdd, Dao.add, Dao.addItem, hgen]
      · simp [Dao.get, hgen]
      · simp [Dao.runUpdate, Dao.update, hgen]
    · intro hgen
      simp [Dao.query_pk, hgen]

/-- Witness for C4 at the rule `[!L, a, b, c]` and mapping `a ↦ "1"`. -/
theorem missing_field_fail_fast_witness :
    startsBang "b" = false
    ∧ dictGet "b" [("a", DVal.str "1")] = (none : Option DVal)
    ∧ genKeyString (["!L", "a"] ++ "b" :: ["c"]) [("a", DVal.str "1")]
        = Except.error (DaoError.missingField "b") :=
  ⟨by decide, by decide,
   (missing_field_fail_fast ["!L", "a"] ["c"] "b" [("a", DVal.str "1")]
     (by decide) (by decide) (by decide)).1⟩

theorem findAt_putAt_self (pkA skA : String) (st : Store) (it : Item) :
    findAt pkA skA (putAt pkA skA st it) (itemKey pkA skA it) = some it := by
  unfold putAt
  induction st with
  | nil => simp [removeAt, findAt]
  | cons x rest ih =>
    by_cases hx : itemKey pkA skA x = itemKey pkA skA it
    · simp [removeAt, hx, ih]
    · simp [removeAt, findAt, hx, ih]

theorem generate_rules_shape (dao : Dao) (d : Item) (ks : List (String × String))
    (h : generate_keys_with_rules dao.rules d = Except.ok ks) :
    ∃ s1 s2, genKeyString dao.krules.pk d = Except.ok s1
      ∧ genKeyString dao.krules.sk d = Except.ok s2
      ∧ ks = dictInsert dao.spec.sk s2 [(dao.spec.pk, s1)] := by
  unfold generate_keys_with_rules Dao.rules parse_rules at h
  cases h1 : genKeyString dao.krules.pk d with
  | error e => simp [genAux, h1] at h
  | ok s1 =>
    cases h2 : genKeyString dao.krules.sk d with
    | error e => simp [genAux, h1, h2] at h
    | ok s2 =>
      refine ⟨s1, s2, rfl, rfl, ?_⟩
      simp [genAux, h1, h2, dictInsert] at h
      exact h.symm

theorem addItem_pk_isSome (dao : Dao) (d : Item) (it : Item)
    (h : Dao.addItem dao d = Except.ok it) :
    (dictGet dao.spec.pk it).isSome = true := by
  unfold Dao.addItem at h
  cases hg : generate_keys_with_rules dao.rules d with
  | error e => rw [hg] at h; exact absurd h (by simp)
  | ok ks =>
    rw [hg] at h
    simp only [Except.ok.injEq] at h
    obtain ⟨s1, s2, h1, h2, hks⟩ := generate_rules_shape dao d ks hg
    subst hks
    subst h
    have hbase : (dictGet dao.spec.pk
        (mergeKeys d (dictInsert dao.spec.sk s2 [(dao.spec.pk, s1)]))).isSome = true := by
      by_cases hsp : dao.spec.sk = dao.spec.pk
      · rw [hsp]
        simp [dictInsert, mergeKeys, dictGet_insert_self]
      · have hins : dictInsert dao.spec.sk s2 [(dao.spec.pk, s1)]
            = [(dao.spec.pk, s1), (dao.spec.sk, s2)] := by
          simp [dictInsert, Ne.symm hsp]
        rw [hins]
        show (dictGet dao.spec.pk
          (dictInsert dao.spec.sk (DVal.str s2) (dictInsert dao.spec.pk (DVal.str s1) d))).isSome = true
        rw [dictGet_insert_other _ _ _ _ hsp, dictGet_insert_self]
        rfl
    cases htc : dao.spec.type_col with
    | none => simpa using hbase
    | some tc => exact dictGet_insert_isSome _ _ _ _ hbase

theorem add_ok_shape (dao : Dao) (d : Item) (st st2 : Store)
    (h : Dao.add dao d st = Except.ok st2) :
    ∃ it, Dao.addItem dao d = Except.ok it
      ∧ st2 = putAt dao.spec.pk dao.spec.sk st it := by
  unfold Dao.add putIfNotExists at h
  cases hai : Dao.addItem dao d with
  | error e => simp only [hai, reduceCtorEq] at h
  | ok it =>
    simp only [hai] at h
    refine ⟨it, rfl, ?_⟩
    cases hfd : findAt dao.spec.pk dao.spec.sk st (itemKey dao.spec.pk dao.spec.sk it) with
    | none =>
      simp only [hfd, Except.ok.injEq] at h
      exact h.symm
    | some ex =>
      simp only [hfd] at h
      by_cases hex : (dictGet dao.spec.pk ex).isSome = true
      · simp [hex] at h
      · simp only [hex, if_false, Bool.false_eq_true, Except.ok.injEq] at h
        exact h.symm

/-- C5: a successful `add` makes an immediate second `add` of the same
value fail with `AlreadyExistsError`, the stored contents being unchanged
by the failed call. -/
theorem duplicate_add_rejected (dao : Dao) (v : Item) (st st1 : Store)
    (h : Dao.runAdd dao v st = (st1, none)) :
    Dao.runAdd dao v st1 = (st1, some DaoError.alreadyExists) := by
  have hadd : Dao.add dao v st = Except.ok st1 := by
    unfold Dao.runAdd at h
    cases hc : Dao.add dao v st with
    | ok s =>
      rw [hc] at h
      have hs : s = st1 := congrArg Prod.fst h
      rw [hs]
    | error e =>
      rw [hc] at h
      simp [Prod.mk.injEq] at h
  obtain ⟨it, hai, hst1⟩ := add_ok_shape dao v st st1 hadd
  have hfind : findAt dao.spec.pk dao.spec.sk st1 (itemKey dao.spec.pk dao.spec.sk it)
      = some it := by
    rw [hst1]
    exact findAt_putAt_self _ _ _ _
  have hpk := addItem_pk_isSome dao v it hai
  simp [Dao.runAdd, Dao.add, hai, putIfNotExists, hfind, hpk]

/-- Witness for C5: adding the same value twice into an empty store. -/
theorem duplicate_add_rejected_witness :
    Dao.runAdd ⟨"T", ⟨"t", "PK", "SK", none⟩, ⟨["!USER", "id"], ["!PROFILE"]⟩⟩
        [("id", DVal.str "42")] []
      = ([[("id", DVal.str "42"), ("PK", DVal.str "USER#id#42"),
           ("SK", DVal.str "PROFILE")]], none)
    ∧ Dao.runAdd ⟨"T", ⟨"t", "PK", "SK", none⟩, ⟨["!USER", "id"], ["!PROFILE"]⟩⟩
        [("id", DVal.str "42")]
        [[("id", DVal.str "42"), ("PK", DVal.str "USER#id#42"),
          ("SK", DVal.str "PROFILE")]]
      = ([[("id", DVal.str "42"), ("PK", DVal.str "USER#id#42"),
           ("SK", DVal.str "PROFILE")]], some DaoError.alreadyExists) :=
  ⟨by decide,
   duplicate_add_rejected ⟨"T", ⟨"t", "PK", "SK", none⟩, ⟨["!USER", "id"], ["!PROFILE"]⟩⟩
     [("id", DVal.str "42")] []
     [[("id", DVal.str "42"), ("PK", DVal.str "USER#id#42"), ("SK", DVal.str "PROFILE")]]
     (by decide)⟩

/-- C6: `update` is conditioned on the partition attribute existing — with
no item stored at the generated partition+sort key it fails with
`NotFoundError` and leaves the store unchanged. -/
theorem update_requires_existence (dao : Dao) (keyd : Item) (ud : List (String × DVal))
    (st : Store) (ks : List (String × String))
    (hg : generate_keys_with_rules dao.rules keyd = Except.ok ks)
    (habs : findAt dao.spec.pk dao.spec.sk st
      (itemKey dao.spec.pk dao.spec.sk (keyItem ks)) = none) :
    Dao.runUpdate dao keyd ud st = (st, some DaoError.notFound) := by
  simp [Dao.runUpdate, Dao.update, hg, updateIfExists, habs]

/-- Witness for C6: an update against the empty store. -/
theorem update_requires_existence_witness :
    generate_keys_with_rules
        (Dao.rules ⟨"T", ⟨"t", "PK", "SK", none⟩, ⟨["!USER", "id"], ["!PROFILE"]⟩⟩)
        [("id", DVal.str "42")]
      = Except.ok [("PK", "USER#id#42"), ("SK", "PROFILE")]
    ∧ Dao.runUpdate ⟨"T", ⟨"t", "PK", "SK", none⟩, ⟨["!USER", "id"], ["!PROFILE"]⟩⟩
        [("id", DVal.str "42")] [("x", DVal.str "1")] []
      = ([], some DaoError.notFound) :=
  ⟨by decide,
   update_requires_existence ⟨"T", ⟨"t", "PK", "SK", none⟩, ⟨["!USER", "id"], ["!PROFILE"]⟩⟩
     [("id", DVal.str "42")] [("x", DVal.str "1")] []
     [("PK", "USER#id#42"), ("SK", "PROFILE")] (by decide) (by decide)⟩

theorem decChars_eq (n : Nat) : decChars n =
    if n < 10 then [Nat.digitChar n]
    else decChars (n / 10) ++ [Nat.digitChar (n % 10)] := by
  rw [decChars]

theorem toDigitsCore_eq_decChars (fuel : Nat) : ∀ (n : Nat) (ds : List Char), n < fuel →
    Nat.toDigitsCore 10 fuel n ds = decChars n ++ ds := by
  induction fuel with
  | zero => omega
  | succ f ih =>
    intro n ds h
    rw [Nat.toDigitsCore]
    by_cases h10 : n / 10 = 0
    · have hn10 : n < 10 := by omega
      have hmod : n % 10 = n := Nat.mod_eq_of_lt hn10
      simp only [h10, if_true, decChars_eq n, hn10, hmod]
      simp
    · have hge : 10 ≤ n := by
        by_contra hlt
        exact h10 (Nat.div_eq_of_lt (by omega))
      have hdiv : n / 10 < f := by
        have := Nat.div_lt_self (show 0 < n by omega) (show 1 < 10 by omega)
        omega
      simp only [h10, if_false]
      rw [ih (n / 10) (Nat.digitChar (n % 10) :: ds) hdiv]
      rw [decChars_eq n]
      simp [show ¬ n < 10 by omega]

theorem repr_eq_decChars (n : Nat) : Nat.repr n = (decChars n).asString := by
  unfold Nat.repr Nat.toDigits
  rw [toDigitsCore_eq_decChars (n + 1) n [] (Nat.lt_succ_self n)]
  simp

theorem digitChar_inj_lt (a b : Nat) (ha : a < 10) (hb : b < 10)
    (h : Nat.digitChar a = Nat.digitChar b) : a = b := by
  interval_cases a <;> interval_cases b <;> revert h <;> decide

theorem decChars_ne_nil (n : Nat) : decChars n ≠ [] := by
  rw [decChars]
  split
  · simp
  · simp

theorem decChars_inj (m : Nat) : ∀ n, decChars m = decChars n → m = n := by
  induction m using Nat.strong_induction_on with
  | _ m ih =>
    intro n h
    rw [decChars_eq m, decChars_eq n] at h
    by_cases hm : m < 10 <;> by_cases hn : n < 10
    · rw [if_pos hm, if_pos hn] at h
      exact digitChar_inj_lt m n hm hn (by simpa using h)
    · exfalso
      rw [if_pos hm, if_neg hn] at h
      rcases hne : decChars (n / 10) with _ | ⟨c, cs⟩
      · exact decChars_ne_nil (n / 10) hne
      · rw [hne] at h
        simp at h
    · exfalso
      rw [if_neg hm, if_pos hn] at h
      rcases hne : decChars (m / 10) with _ | ⟨c, cs⟩
      · exact decChars_ne_nil (m / 10) hne
      · rw [hne] at h
        simp at h
    · rw [if_neg hm, if_neg hn] at h
      obtain ⟨h1, h2⟩ := List.append_inj' h (by simp)
      have hdiv : m / 10 = n / 10 :=
        ih (m / 10) (Nat.div_lt_self (by omega) (by omega)) (n / 10) h1
      have hmod : m % 10 = n % 10 :=
        digitChar_inj_lt _ _ (Nat.mod_lt _ (by omega)) (Nat.mod_lt _ (by omega))
          (by simpa using h2)
      omega

theorem nat_repr_inj (m n : Nat) (h : Nat.repr m = Nat.repr n) : m = n := by
  rw [repr_eq_decChars, repr_eq_decChars] at h
  have h2 : decChars m = decChars n := congrArg String.data h
  exact decChars_inj m n h2

theorem placeholder_inj (p : String) (i j : Nat)
    (h : p ++ Nat.repr i = p ++ Nat.repr j) : i = j := by
  have hd : p.data ++ (Nat.repr i).data = p.data ++ (Nat.repr j).data := congrArg String.data h
  have hr : (Nat.repr i).data = (Nat.repr j).data := List.append_cancel_left hd
  rw [repr_eq_decChars, repr_eq_decChars] at hr
  exact decChars_inj i j hr

theorem dictGet_skip {α : Type} (k : String) (l1 l2 : List (String × α))
    (h : ∀ p ∈ l1, p.1 ≠ k) : dictGet k (l1 ++ l2) = dictGet k l2 := by
  induction l1 with
  | nil => rfl
  | cons p rest ih =>
    obtain ⟨p1, pv⟩ := p
    have hp1 : p1 ≠ k := h (p1, pv) (List.mem_cons_self _ _)
    show dictGet k ((p1, pv) :: (rest ++ l2)) = dictGet k l2
    rw [dictGet]
    simp only [hp1, if_false]
    exact ih (fun q hq => h q (List.mem_cons_of_mem _ hq))

theorem applySet_build (ud : List (String × DVal)) : ∀ (i : Nat)
    (en : List (String × String)) (ev : List (String × DVal)) (it : Item),
    (∀ p ∈ en, ∀ j : Nat, i ≤ j → p.1 ≠ "#attr" ++ Nat.repr j) →
    (∀ p ∈ ev, ∀ j : Nat, i ≤ j → p.1 ≠ ":val" ++ Nat.repr j) →
    applySet (buildUpdateAux i ud).1 (en ++ (buildUpdateAux i ud).2.1)
      (ev ++ (buildUpdateAux i ud).2.2) it = updatedItem ud it := by
  induction ud with
  | nil => intro i en ev it _ _; simp [buildUpdateAux, applySet, updatedItem]
  | cons kv rest ih =>
    intro i en ev it hn hv
    obtain ⟨k, v⟩ := kv
    simp only [buildUpdateAux]
    rw [applySet]
    have hgn : dictGet ("#attr" ++ Nat.repr i)
        (en ++ ("#attr" ++ Nat.repr i, k) :: (buildUpdateAux (i + 1) rest).2.1)
        = some k := by
      rw [dictGet_skip _ en _ (fun p hp => hn p hp i (Nat.le_refl i)), dictGet]
      simp
    have hgv : dictGet (":val" ++ Nat.repr i)
        (ev ++ (":val" ++ Nat.repr i, v) :: (buildUpdateAux (i + 1) rest).2.2)
        = some v := by
      rw [dictGet_skip _ ev _ (fun p hp => hv p hp i (Nat.le_refl i)), dictGet]
      simp
    simp only [hgn, hgv]
    have hen : ∀ p ∈ en ++ [(("#attr" ++ Nat.repr i : String), k)],
        ∀ j : Nat, i + 1 ≤ j → p.1 ≠ "#attr" ++ Nat.repr j := by
      intro p hp j hj
      rcases List.mem_append.mp hp with hp1 | hp2
      · exact hn p hp1 j (by omega)
      · have : p = (("#attr" ++ Nat.repr i : String), k) := by simpa using hp2
        subst this
        intro hcontra
        have := placeholder_inj "#attr" i j hcontra
        omega
    have hev : ∀ p ∈ ev ++ [((":val" ++ Nat.repr i : String), v)],
        ∀ j : Nat, i + 1 ≤ j → p.1 ≠ ":val" ++ Nat.repr j := by
      intro p hp j hj
      rcases List.mem_append.mp hp with hp1 | hp2
      · exact hv p hp1 j (by omega)
      · have : p = ((":val" ++ Nat.repr i : String), v) := by simpa using hp2
        subst this
        intro hcontra
        have := placeholder_inj ":val" i j hcontra
        omega
    have happ := ih (i + 1) (en ++ [(("#attr" ++ Nat.repr i : String), k)])
      (ev ++ [((":val" ++ Nat.repr i : String), v)]) (dictInsert k v it) hen hev
    simp only [List.append_assoc, List.singleton_append] at happ
    rw [happ]
    rfl

theorem applySet_buildUpdate (ud : List (String × DVal)) (it : Item) :
    applySet (buildUpdateAux 0 ud).1 (buildUpdateAux 0 ud).2.1
      (buildUpdateAux 0 ud).2.2 it = updatedItem ud it := by
  have h := applySet_build ud 0 [] [] it (by simp) (by simp)
  simpa using h

theorem updatedItem_not_named (ud : List (String × DVal)) : ∀ (it : Item) (k : String),
    k ∉ ud.map Prod.fst → dictGet k (updatedItem ud it) = dictGet k it := by
  induction ud with
  | nil => intro it k _; rfl
  | cons kv rest ih =>
    intro it k hk
    simp only [List.map_cons, List.mem_cons] at hk
    push_neg at hk
    show dictGet k (updatedItem rest (dictInsert kv.1 kv.2 it)) = dictGet k it
    rw [ih _ k hk.2, dictGet_insert_other _ _ _ _ (Ne.symm hk.1)]

theorem updatedItem_named (ud : List (String × DVal)) : ∀ (it : Item) (k : String) (v : DVal),
    (ud.map Prod.fst).Nodup → (k, v) ∈ ud → dictGet k (updatedItem ud it) = some v := by
  induction ud with
  | nil => intro it k v _ h; simp at h
  | cons kv rest ih =>
    intro it k v hnd h
    obtain ⟨k1, v1⟩ := kv
    simp only [List.map_cons, List.nodup_cons] at hnd
    rcases List.mem_cons.mp h with heq | hmem
    · injection heq with h1 h2
      subst h1
      subst h2
      show dictGet k (updatedItem rest (dictInsert k v it)) = some v
      rw [updatedItem_not_named rest _ k hnd.1, dictGet_insert_self]
    · exact ih (dictInsert k1 v1 it) k v hnd.2 hmem

/-- C7: on an existing item, `update` stores the item with exactly the
named fields set to their new values — every field not named keeps its
stored value, and each named field maps to its given new value. -/
theorem update_sets_exactly_named_fields (dao : Dao) (keyd : Item)
    (ud : List (String × DVal)) (st : Store) (ks : List (String × String)) (existing : Item)
    (hg : generate_keys_with_rules dao.rules keyd = Except.ok ks)
    (hfind : findAt dao.spec.pk dao.spec.sk st
      (itemKey dao.spec.pk dao.spec.sk (keyItem ks)) = some existing)
    (hpk : (dictGet dao.spec.pk existing).isSome = true)
    (hnd : (ud.map Prod.fst).Nodup) :
    Dao.update dao keyd ud st
      = Except.ok (putAt dao.spec.pk dao.spec.sk st (updatedItem ud existing))
    ∧ (∀ k, k ∉ ud.map Prod.fst →
        dictGet k (updatedItem ud existing) = dictGet k existing)
    ∧ (∀ k v, (k, v) ∈ ud → dictGet k (updatedItem ud existing) = some v) := by
  refine ⟨?_, fun k hk => updatedItem_not_named ud existing k hk,
    fun k v hkv => updatedItem_named ud existing k v hnd hkv⟩
  simp [Dao.update, hg, updateIfExists, hfind, hpk, applySet_buildUpdate]

/-- Witness for C7: updating field `a` of a stored item. -/
theorem update_sets_exactly_named_fields_witness :
    ([("a", DVal.int 2)].map Prod.fst).Nodup
    ∧ Dao.update ⟨"T", ⟨"t", "PK", "SK", none⟩, ⟨["!USER", "id"], ["!PROFILE"]⟩⟩
        [("id", DVal.str "42")] [("a", DVal.int 2)]
        [[("PK", DVal.str "USER#id#42"), ("SK", DVal.str "PROFILE"), ("a", DVal.int 1)]]
      = Except.ok (putAt "PK" "SK"
          [[("PK", DVal.str "USER#id#42"), ("SK", DVal.str "PROFILE"), ("a", DVal.int 1)]]
          (updatedItem [("a", DVal.int 2)]
            [("PK", DVal.str "USER#id#42"), ("SK", DVal.str "PROFILE"), ("a", DVal.int 1)])) :=
  ⟨by decide,
   (update_sets_exactly_named_fields
     ⟨"T", ⟨"t", "PK", "SK", none⟩, ⟨["!USER", "id"], ["!PROFILE"]⟩⟩
     [("id", DVal.str "42")] [("a", DVal.int 2)]
     [[("PK", DVal.str "USER#id#42"), ("SK", DVal.str "PROFILE"), ("a", DVal.int 1)]]
     [("PK", "USER#id#42"), ("SK", "PROFILE")]
     [("PK", DVal.str "USER#id#42"), ("SK", DVal.str "PROFILE"), ("a", DVal.int 1)]
     (by decide) (by decide) (by decide) (by decide)).1⟩

theorem mem_queryEq (pkA pkval : String) (st : Store) (it : Item) :
    it ∈ queryEq pkA pkval st ↔ it ∈ st ∧ dictGet pkA it = some (DVal.str pkval) := by
  induction st with
  | nil => simp [queryEq]
  | cons x rest ih =>
    rw [queryEq]
    by_cases hx : dictGet pkA x = some (DVal.str pkval)
    · rw [if_pos hx]
      simp only [List.mem_cons, ih]
      constructor
      · rintro (rfl | ⟨hm, hc⟩)
        · exact ⟨Or.inl rfl, hx⟩
        · exact ⟨Or.inr hm, hc⟩
      · rintro ⟨rfl | hm, hc⟩
        · exact Or.inl rfl
        · exact Or.inr ⟨hm, hc⟩
    · rw [if_neg hx, ih]
      constructor
      · rintro ⟨hm, hc⟩
        exact ⟨List.mem_cons_of_mem _ hm, hc⟩
      · rintro ⟨hm, hc⟩
        rcases List.mem_cons.mp hm with rfl | hm2
        · exact absurd hc hx
        · exact ⟨hm2, hc⟩

/-- C8: `query_pk` generates only the partition rule — its result is
identical for any two sort rules — and returns exactly the stored items
whose partition attribute equals the partition string computed from the
key; items in other partitions are never returned. -/
theorem query_pk_partition_scoping (tn : String) (spec : TableSpec)
    (pkr skr skr2 : List String) (keyd : Item) (st : Store) (pkval : String)
    (h : genKeyString pkr keyd = Except.ok pkval) :
    Dao.query_pk ⟨tn, spec, ⟨pkr, skr⟩⟩ keyd st
      = Dao.query_pk ⟨tn, spec, ⟨pkr, skr2⟩⟩ keyd st
    ∧ ∃ res, Dao.query_pk ⟨tn, spec, ⟨pkr, skr⟩⟩ keyd st = Except.ok res
        ∧ ∀ it : Item, it ∈ res ↔ it ∈ st ∧ dictGet spec.pk it = some (DVal.str pkval) := by
  constructor
  · rfl
  · refine ⟨queryEq spec.pk pkval st, ?_, fun it => mem_queryEq spec.pk pkval st it⟩
    simp [Dao.query_pk, Dao.rules, parse_rules, generate_keys_with_rules, genAux,
      h, dictInsert, dictGet]

/-- Witness for C8: a two-item store with one item in each partition. -/
theorem query_pk_partition_scoping_witness :
    genKeyString ["!USER", "id"] [("id", DVal.str "42")] = Except.ok "USER#id#42"
    ∧ (Dao.query_pk ⟨"T", ⟨"t", "PK", "SK", none⟩, ⟨["!USER", "id"], ["!PROFILE"]⟩⟩
          [("id", DVal.str "42")]
          [[("PK", DVal.str "USER#id#42")], [("PK", DVal.str "OTHER")]]
        = Dao.query_pk ⟨"T", ⟨"t", "PK", "SK", none⟩, ⟨["!USER", "id"], ["status"]⟩⟩
          [("id", DVal.str "42")]
          [[("PK", DVal.str "USER#id#42")], [("PK", DVal.str "OTHER")]]
      ∧ ∃ res, Dao.query_pk ⟨"T", ⟨"t", "PK", "SK", none⟩, ⟨["!USER", "id"], ["!PROFILE"]⟩⟩
            [("id", DVal.str "42")]
            [[("PK", DVal.str "USER#id#42")], [("PK", DVal.str "OTHER")]]
          = Except.ok res
        ∧ ∀ it : Item, it ∈ res ↔
            it ∈ [[("PK", DVal.str "USER#id#42")], [("PK", DVal.str "OTHER")]]
            ∧ dictGet "PK" it = some (DVal.str "USER#id#42")) :=
  ⟨by decide,
   query_pk_partition_scoping "T" ⟨"t", "PK", "SK", none⟩ ["!USER", "id"]
     ["!PROFILE"] ["status"] [("id", DVal.str "42")]
     [[("PK", DVal.str "USER#id#42")], [("PK", DVal.str "OTHER")]]
     "USER#id#42" (by decide)⟩

/-- C9: `get` reuses the truncate-on-null generation path with no guard —
with a null sort-rule field it behaves exactly as if the sort rule were cut
before that field, performing the exact-match fetch with the truncated sort
key, and raises no distinguishing error (it succeeds whenever the remaining
rule fields generate). -/
theorem get_truncates_on_null_sort_field (tn : String) (spec : TableSpec)
    (pkr pre suf : List String) (f : String) (keyd : Item) (st : Store)
    (hf : startsBang f = false) (hnull : dictGet f keyd = some DVal.null) :
    Dao.get ⟨tn, spec, ⟨pkr, pre ++ f :: suf⟩⟩ keyd st
      = Dao.get ⟨tn, spec, ⟨pkr, pre⟩⟩ keyd st
    ∧ (∀ s1 s2, genKeyString pkr keyd = Except.ok s1 → genKeyString pre keyd = Except.ok s2 →
        ∃ r, Dao.get ⟨tn, spec, ⟨pkr, pre ++ f :: suf⟩⟩ keyd st = Except.ok r) := by
  have htr : genKeyString (pre ++ f :: suf) keyd = genKeyString pre keyd := by
    unfold genKeyString
    rw [genParts_truncate pre suf f keyd hf hnull]
  constructor
  · unfold Dao.get
    simp only [generate_keys_with_rules, Dao.rules, parse_rules, genAux, htr]
  · intro s1 s2 h1 h2
    cases hget : Dao.get ⟨tn, spec, ⟨pkr, pre ++ f :: suf⟩⟩ keyd st with
    | ok r => exact ⟨r, rfl⟩
    | error e =>
      exfalso
      unfold Dao.get at hget
      simp only [generate_keys_with_rules, Dao.rules, parse_rules, genAux,
        htr, h1, h2] at hget
      simp at hget

/-- Witness for C9 at a key whose sort field `ts` is null. -/
theorem get_truncates_on_null_sort_field_witness :
    startsBang "ts" = false
    ∧ dictGet "ts" [("id", DVal.str "42"), ("status", DVal.str "A"), ("ts", DVal.null)]
        = some DVal.null
    ∧ Dao.get ⟨"T", ⟨"t", "PK", "SK", none⟩, ⟨["!USER", "id"], ["status"] ++ "ts" :: ["!Z"]⟩⟩
        [("id", DVal.str "42"), ("status", DVal.str "A"), ("ts", DVal.null)] []
      = Dao.get ⟨"T", ⟨"t", "PK", "SK", none⟩, ⟨["!USER", "id"], ["status"]⟩⟩
        [("id", DVal.str "42"), ("status", DVal.str "A"), ("ts", DVal.null)] [] :=
  ⟨by decide, by decide,
   (get_truncates_on_null_sort_field "T" ⟨"t", "PK", "SK", none⟩ ["!USER", "id"]
     ["status"] ["!Z"] "ts"
     [("id", DVal.str "42"), ("status", DVal.str "A"), ("ts", DVal.null)] []
     (by decide) (by decide)).1⟩

/-- C10: `add` merges the generated partition and sort strings — and the
value type's name when a type-discriminator column is declared — into the
serialized mapping after serialization, so those attributes hold the
derived values even when the entity had fields of the same names, while
every other field is stored unchanged; the assembled item is the one a
successful `add` stores. -/
theorem add_overwrites_key_attributes (dao : Dao) (d : Item) (s1 s2 : String)
    (h1 : genKeyString dao.krules.pk d = Except.ok s1)
    (h2 : genKeyString dao.krules.sk d = Except.ok s2)
    (hsp : dao.spec.sk ≠ dao.spec.pk)
    (htcp : dao.spec.type_col ≠ some dao.spec.pk)
    (htcs : dao.spec.type_col ≠ some dao.spec.sk) :
    ∃ it, Dao.addItem dao d = Except.ok it
      ∧ dictGet dao.spec.pk it = some (DVal.str s1)
      ∧ dictGet dao.spec.sk it = some (DVal.str s2)
      ∧ (∀ tc, dao.spec.type_col = some tc → dictGet tc it = some (DVal.str dao.typeName))
      ∧ (∀ k, k ≠ dao.spec.pk → k ≠ dao.spec.sk →
          (∀ tc, dao.spec.type_col = some tc → k ≠ tc) →
          dictGet k it = dictGet k d)
      ∧ (∀ st st2, Dao.add dao d st = Except.ok st2 → it ∈ st2) := by
  have hg : generate_keys_with_rules dao.rules d
      = Except.ok [(dao.spec.pk, s1), (dao.spec.sk, s2)] := by
    simp [generate_keys_with_rules, Dao.rules, parse_rules, genAux, h1, h2,
      dictInsert, Ne.symm hsp]
  have hmk : mergeKeys d [(dao.spec.pk, s1), (dao.spec.sk, s2)]
      = dictInsert dao.spec.sk (DVal.str s2) (dictInsert dao.spec.pk (DVal.str s1) d) := by
    simp [mergeKeys]
  cases htc : dao.spec.type_col with
  | none =>
    have hai : Dao.addItem dao d = Except.ok
        (dictInsert dao.spec.sk (DVal.str s2) (dictInsert dao.spec.pk (DVal.str s1) d)) := by
      unfold Dao.addItem
      rw [hg]
      simp [htc, hmk]
    refine ⟨_, hai, ?_, ?_, ?_, ?_, ?_⟩
    · rw [dictGet_insert_other _ _ _ _ hsp, dictGet_insert_self]
    · rw [dictGet_insert_self]
    · intro tc htc2
      exact absurd htc2 (by simp)
    · intro k hkp hks _
      rw [dictGet_insert_other _ _ _ _ (Ne.symm hks), dictGet_insert_other _ _ _ _ (Ne.symm hkp)]
    · intro st st2 hadd
      obtain ⟨it2, hai2, hst2⟩ := add_ok_shape dao d st st2 hadd
      rw [hai] at hai2
      have hit : it2 = dictInsert dao.spec.sk (DVal.str s2)
          (dictInsert dao.spec.pk (DVal.str s1) d) := by
        simpa using hai2.symm
      rw [hst2, hit]
      simp [putAt]
  | some tc =>
    have htcp2 : tc ≠ dao.spec.pk := fun hh => htcp (htc.trans (by rw [hh]))
    have htcs2 : tc ≠ dao.spec.sk := fun hh => htcs (htc.trans (by rw [hh]))
    have hai : Dao.addItem dao d = Except.ok
        (dictInsert tc (DVal.str dao.typeName)
          (dictInsert dao.spec.sk (DVal.str s2) (dictInsert dao.spec.pk (DVal.str s1) d))) := by
      unfold Dao.addItem
      rw [hg]
      simp [htc, hmk]
    refine ⟨_, hai, ?_, ?_, ?_, ?_, ?_⟩
    · rw [dictGet_insert_other _ _ _ _ htcp2, dictGet_insert_other _ _ _ _ hsp,
        dictGet_insert_self]
    · rw [dictGet_insert_other _ _ _ _ htcs2, dictGet_insert_self]
    · intro tc2 htc2
      have : tc = tc2 := by simpa using htc2
      rw [← this, dictGet_insert_self]
    · intro k hkp hks hktc
      have hktc2 : k ≠ tc := hktc tc rfl
      rw [dictGet_insert_other _ _ _ _ (Ne.symm hktc2),
        dictGet_insert_other _ _ _ _ (Ne.symm hks),
        dictGet_insert_other _ _ _ _ (Ne.symm hkp)]
    · intro st st2 hadd
      obtain ⟨it2, hai2, hst2⟩ := add_ok_shape dao d st st2 hadd
      rw [hai] at hai2
      have hit : it2 = dictInsert tc (DVal.str dao.typeName)
          (dictInsert dao.spec.sk (DVal.str s2)
            (dictInsert dao.spec.pk (DVal.str s1) d)) := by
        simpa using hai2.symm
      rw [hst2, hit]
      simp [putAt]

/-- Witness for C10: an entity carrying its own `PK` field, stored through
a table spec with a type-discriminator column. -/
theorem add_overwrites_key_attributes_witness :
    genKeyString ["!USER", "id"] [("id", DVal.str "42"), ("PK", DVal.str "evil")]
      = Except.ok "USER#id#42"
    ∧ genKeyString ["!PROFILE"] [("id", DVal.str "42"), ("PK", DVal.str "evil")]
      = Except.ok "PROFILE"
    ∧ ∃ it, Dao.addItem ⟨"T", ⟨"t", "PK", "SK", some "TY"⟩, ⟨["!USER", "id"], ["!PROFILE"]⟩⟩
          [("id", DVal.str "42"), ("PK", DVal.str "evil")] = Except.ok it
        ∧ dictGet "PK" it = some (DVal.str "USER#id#42")
        ∧ dictGet "SK" it = some (DVal.str "PROFILE")
        ∧ (∀ tc, (some "TY" : Option String) = some tc →
            dictGet tc it = some (DVal.str "T"))
        ∧ (∀ k, k ≠ "PK" → k ≠ "SK" →
            (∀ tc, (some "TY" : Option String) = some tc → k ≠ tc) →
            dictGet k it = dictGet k [("id", DVal.str "42"), ("PK", DVal.str "evil")])
        ∧ (∀ st st2, Dao.add ⟨"T", ⟨"t", "PK", "SK", some "TY"⟩,
              ⟨["!USER", "id"], ["!PROFILE"]⟩⟩
              [("id", DVal.str "42"), ("PK", DVal.str "evil")] st = Except.ok st2 → it ∈ st2) :=
  ⟨by decide, by decide,
   add_overwrites_key_attributes
     ⟨"T", ⟨"t", "PK", "SK", some "TY"⟩, ⟨["!USER", "id"], ["!PROFILE"]⟩⟩
     [("id", DVal.str "42"), ("PK", DVal.str "evil")] "USER#id#42" "PROFILE"
     (by decide) (by decide) (by decide) (by decide) (by decide)⟩

end Pkska
